import Mathlib

/-!
Shallow embedding of `src/server.js` (ai-news-bot): an RSS → filter →
summarize → Notion pipeline.

Modelling conventions:
* JavaScript strings are `String`; a field that may be `undefined` is an
  `Option String`.  The JS idiom `a || b` on strings (falsy = `undefined`
  or `""`) is `jsStrOr` / `jsOrString`.
* `Date` values are epoch milliseconds (`Int`).  `new Date(s)` for a
  string `s` is an uninterpreted parameter `parseDate : String → Option Int`
  (`none` = Invalid Date); `new Date(undefined)` is Invalid.  A comparison
  `d1 > d2` where either side is Invalid is `false` (NaN comparison), which
  the model encodes by matching on the `Option`.
  `yesterday.setDate(yesterday.getDate() - 1)` (server.js:44-45) is one day
  = 86400000 ms before `now`; the model uses a single `now` per run.
* Network effects are parameters of the run environment: the per-feed
  result of `parser.parseURL`, the outcome of the OpenAI completion call,
  and the outcome of `notion.blocks.children.append`, each an `Except`.
  Every function of the source that catches its own exceptions is total
  here, returning a result record; an uncaught JS exception would be an
  `Except.error` outcome.
* The process-lifetime JS `Set` `processedArticles` is a `List String`
  with `contains` membership; `Set.add` is cons.
-/

/-- One item of a parsed feed, as produced by `rss-parser`
(fields used by server.js: title, link, contentSnippet, content,
pubDate, isoDate, summary). -/
structure FeedItem where
  title : String
  link : String
  contentSnippet : Option String
  content : Option String
  pubDate : Option String
  isoDate : Option String
  itemSummary : Option String
deriving DecidableEq, Repr

/-- A parsed feed: `feed.title` (may be absent) and `feed.items`. -/
structure Feed where
  title : Option String
  items : List FeedItem
deriving DecidableEq, Repr

/-- The normalized article record built at server.js:50-57. -/
structure Article where
  title : String
  link : String
  content : String
  source : String
  pubDate : Option String
  summary : String
deriving DecidableEq, Repr

/-- JS `a || b` where `a : Option String` (falsy = `undefined` or `""`). -/
def jsStrOr (a b : Option String) : Option String :=
  match a with
  | some s => if s = "" then b else some s
  | none => b

/-- JS `a || d` where the default `d` is a plain string. -/
def jsOrString (a : Option String) (d : String) : String :=
  match a with
  | some s => if s = "" then d else s
  | none => d

/-- Milliseconds in one day: the width of the recency window that
`yesterday.setDate(yesterday.getDate() - 1)` (server.js:44-45) creates. -/
def msPerDay : Int := 86400000

/-- Epoch milliseconds of `new Date(item.pubDate || item.isoDate)`
(server.js:48); `none` is an Invalid Date (absent or unparsable input). -/
def itemPubMillis (parseDate : String → Option Int) (item : FeedItem) : Option Int :=
  match jsStrOr item.pubDate item.isoDate with
  | none => none
  | some s => parseDate s

/-- The recency test `pubDate > yesterday` (server.js:49): an Invalid Date
compares false; otherwise a strict comparison against `now - 24h`. -/
def isRecent (parseDate : String → Option Int) (now : Int) (item : FeedItem) : Bool :=
  match itemPubMillis parseDate item with
  | none => false
  | some t => now - msPerDay < t

/-- The whole filter predicate of server.js:47-49:
recent and not already in `processedArticles`. -/
def keepItem (parseDate : String → Option Int) (now : Int) (seen : List String)
    (item : FeedItem) : Bool :=
  isRecent parseDate now item && !(seen.contains item.link)

/-- The mapping of server.js:50-57 from a kept feed item to an `Article`. -/
def toArticle (feed : Feed) (feedUrl : String) (item : FeedItem) : Article :=
  { title := item.title
    link := item.link
    content := jsOrString item.contentSnippet (jsOrString item.content "")
    source := jsOrString feed.title feedUrl
    pubDate := jsStrOr item.pubDate item.isoDate
    summary := jsOrString item.itemSummary "" }

/-- `fetchLatestArticles` (server.js:35-67).  `feedResults` pairs each
configured feed URL with the outcome of `parser.parseURL`: a thrown
fetch/parse error is caught per feed (server.js:61-63) and contributes
nothing; a parsed feed contributes its filtered, mapped items, appended
to the accumulator (server.js:59). -/
def fetchLatestArticles (parseDate : String → Option Int) (now : Int)
    (seen : List String) (feedResults : List (String × Except String Feed)) : List Article :=
  feedResults.foldl (fun allArticles fr =>
    match fr.2 with
    | Except.error _ => allArticles
    | Except.ok feed =>
        allArticles ++ (feed.items.filter (keepItem parseDate now seen)).map (toArticle feed fr.1))
    []

/-- The deterministic fallback string of server.js:97 (returned when the
OpenAI call throws): `요약 생성 실패: ${article.title}`. -/
def fallbackSummary (article : Article) : String :=
  "요약 생성 실패: " ++ article.title

/-- `summarizeArticle` (server.js:70-99).  `backend` is the outcome of the
`openai.chat.completions.create` call (including extracting
`choices[0].message.content`); any throw is caught and replaced by the
fallback string carrying the article title.  Total: never raises. -/
def summarizeArticle (backend : Article → Except String String) (article : Article) : String :=
  match backend article with
  | Except.ok s => s
  | Except.error _ => fallbackSummary article

/-- A rich-text run: `content`, optional `link.url`, and the used
annotation fields (server.js:130, 148). -/
structure TextRun where
  content : String
  url : Option String
  bold : Bool
  color : Option String
deriving DecidableEq, Repr

/-- A Notion block as constructed by `addToNotionPage`. -/
inductive Block where
  | heading2 (runs : List TextRun)
  | heading3 (runs : List TextRun)
  | paragraph (runs : List TextRun)
  | divider
deriving DecidableEq, Repr

/-- The date-labeled title block (server.js:107-116). -/
def mkTitleBlock (today : String) : Block :=
  Block.heading2 [⟨"AI 뉴스 요약 - " ++ today, none, false, none⟩]

/-- The per-article bold title heading (server.js:123-133). -/
def articleTitleBlock (a : Article) : Block :=
  Block.heading3 [⟨a.title, none, true, none⟩]

/-- The per-article source + hyperlink paragraph (server.js:136-152). -/
def sourceLinkBlock (a : Article) : Block :=
  Block.paragraph
    [⟨"출처: " ++ a.source ++ " | ", none, false, none⟩,
     ⟨"원문 링크", some a.link, false, some "blue"⟩]

/-- The per-article summary paragraph (server.js:155-164):
`summaries[index] || '요약 없음'`. -/
def summaryBlock (s : Option String) : Block :=
  Block.paragraph [⟨jsOrString s "요약 없음", none, false, none⟩]

/-- The four blocks pushed per article (server.js:121-172), in order. -/
def articleBlocks (a : Article) (s : Option String) : List Block :=
  [articleTitleBlock a, sourceLinkBlock a, summaryBlock s, Block.divider]

/-- The `articles.forEach((article, index) => ...)` loop of
server.js:121-172: article `index` is paired with `summaries[index]`
(positional; `undefined` when `summaries` is shorter). -/
def perArticleBlocks : List Article → List String → List Block
  | [], _ => []
  | a :: as, ss => articleBlocks a ss.head? ++ perArticleBlocks as ss.tail

/-- The full block list of one run: title block then per-article blocks
(server.js:118-172). -/
def buildBlocks (today : String) (articles : List Article) (summaries : List String) :
    List Block :=
  mkTitleBlock today :: perArticleBlocks articles summaries

/-- Observable result of `addToNotionPage`: each append call attempted
(with its block list), the log lines, and what the function returns to
its caller. -/
structure PublishResult where
  appendCalls : List (List Block)
  logs : List String
  outcome : Except String Unit
deriving Repr

/-- `addToNotionPage` (server.js:102-184).  `append` is the outcome of the
single `notion.blocks.children.append` call (server.js:175-178).  The
`try/catch` at server.js:103/181-183 catches an append failure, logs it,
and returns normally: the error is NOT rethrown, so `outcome` is
`Except.ok ()` in both branches. -/
def addToNotionPage (append : List Block → Except String Unit) (today : String)
    (articles : List Article) (summaries : List String) : PublishResult :=
  let blocks := buildBlocks today articles summaries
  match append blocks with
  | Except.ok _ =>
      { appendCalls := [blocks]
        logs := ["Successfully added " ++ toString articles.length ++ " articles to Notion"]
        outcome := Except.ok () }
  | Except.error e =>
      { appendCalls := [blocks]
        logs := ["Error adding to Notion: " ++ e]
        outcome := Except.ok () }

/-- One step of the summarization loop (server.js:202-212): summarize the
article, push the summary, then add the link to `processedArticles`.
State is `(processedArticles, summaries)`. -/
def summarizeStep (backend : Article → Except String String)
    (st : List String × List String) (a : Article) : List String × List String :=
  (a.link :: st.1, st.2 ++ [summarizeArticle backend a])

/-- The `for (const article of articles)` loop of server.js:201-212. -/
def summarizeLoop (backend : Article → Except String String)
    (articles : List Article) (st : List String × List String) :
    List String × List String :=
  articles.foldl (summarizeStep backend) st

/-- The environment of one run: date parsing, invocation time, today's
localized date string, per-feed fetch outcomes, the OpenAI call outcome
per article, and the Notion append outcome. -/
structure RunEnv where
  parseDate : String → Option Int
  now : Int
  today : String
  feedResults : List (String × Except String Feed)
  backend : Article → Except String String
  append : List Block → Except String Unit

/-- Observable result of one `processAINews` run. -/
structure RunResult where
  seen : List String
  summaries : List String
  summaryCalls : List String
  publishes : List (List Block)
  logs : List String
  outcome : Except String Unit

/-- `processAINews` (server.js:187-221): fetch, early-return on an empty
batch (server.js:195-198), summarize each article in order (recording one
summarization call per list element in `summaryCalls`), then publish.
Every inner step is total, so the outer `catch` (server.js:218-220) never
fires and the function always resolves (`outcome = Except.ok ()`). -/
def processAINews (env : RunEnv) (seen : List String) : RunResult :=
  let articles := fetchLatestArticles env.parseDate env.now seen env.feedResults
  if articles.isEmpty then
    { seen := seen, summaries := [], summaryCalls := [], publishes := []
      logs := ["No new articles found"], outcome := Except.ok () }
  else
    let st := summarizeLoop env.backend articles (seen, [])
    let pub := addToNotionPage env.append env.today articles st.2
    { seen := st.1
      summaries := st.2
      summaryCalls := articles.map (·.link)
      publishes := pub.appendCalls
      logs := pub.logs ++ ["AI news processing completed successfully"]
      outcome := Except.ok () }

/-- A response of the manual-trigger endpoint: HTTP status plus the JSON
body's `success` and `error` fields. -/
structure HttpResponse where
  status : Nat
  success : Bool
  error : Option String
deriving DecidableEq, Repr

/-- The `app.get('/run-now')` handler (server.js:232-239) as a function of
the awaited outcome of `processAINews()`: a fulfilled promise yields
`200 {success: true}`, a rejection yields `500 {success: false, error}`. -/
def runNowHandler (runOutcome : Except String Unit) : HttpResponse :=
  match runOutcome with
  | Except.ok _ => { status := 200, success := true, error := none }
  | Except.error e => { status := 500, success := false, error := some e }

/-- The composed endpoint: run `processAINews` and respond from its
outcome. -/
def runNowEndpoint (env : RunEnv) (seen : List String) : HttpResponse :=
  runNowHandler (processAINews env seen).outcome

/-- Per-feed contribution to `fetchLatestArticles` (used to characterize
the fold). -/
def feedArticles (parseDate : String → Option Int) (now : Int) (seen : List String)
    (fr : String × Except String Feed) : List Article :=
  match fr.2 with
  | Except.error _ => []
  | Except.ok feed => (feed.items.filter (keepItem parseDate now seen)).map (toArticle feed fr.1)

/-- Links of every item carried by every successfully fetched feed. -/
def allItemLinks (feedResults : List (String × Except String Feed)) : List String :=
  feedResults.flatMap (fun fr =>
    match fr.2 with
    | Except.error _ => []
    | Except.ok feed => feed.items.map (·.link))


/-! ### Concrete fixtures used by witnesses and counterexamples -/

/-- A concrete date parser: `"d1"` parses to an epoch-millisecond instant
inside the recency window of `nowC`; everything else is unparsable. -/
def parseDateC : String → Option Int := fun s =>
  if s = "d1" then some 86400001 else none

/-- The invocation instant used by the concrete fixtures (2 days in ms). -/
def nowC : Int := 172800000

/-- A feed item published inside the recency window. -/
def itemC1 : FeedItem :=
  { title := "T1", link := "L1", contentSnippet := some "c1", content := none
    pubDate := some "d1", isoDate := none, itemSummary := none }

/-- A feed item with no date fields at all. -/
def itemN : FeedItem :=
  { title := "N", link := "LN", contentSnippet := none, content := none
    pubDate := none, isoDate := none, itemSummary := none }

/-- A concrete feed containing one recent item. -/
def feedC : Feed := { title := some "Feed A", items := [itemC1] }

/-- A baseline concrete run environment: one reachable feed, an OpenAI
backend that always fails, a Notion append that succeeds. -/
def envC : RunEnv :=
  { parseDate := parseDateC, now := nowC, today := "2026. 10. 11."
    feedResults := [("https://a.example/rss", Except.ok feedC)]
    backend := fun _ => Except.error "quota exceeded"
    append := fun _ => Except.ok () }

/-- Like `envC` but the Notion append call is rejected. -/
def envC1 : RunEnv := { envC with append := fun _ => Except.error "append rejected" }

/-- Like `envC` but two distinct configured feeds carry an item with the
same link `"L1"`. -/
def envC9 : RunEnv :=
  { envC with feedResults :=
      [("https://a.example/rss", Except.ok feedC), ("https://b.example/rss", Except.ok feedC)] }

/-- Boundary date parser: `"A"` parses to 23h59m before instant 0 and
`"B"` to 24h01m before instant 0. -/
def parseDateW : String → Option Int := fun s =>
  if s = "A" then some (-86340000) else if s = "B" then some (-86460000) else none

/-- An item published 23h59m ago (relative to instant 0). -/
def itemWA : FeedItem :=
  { title := "WA", link := "LA", contentSnippet := none, content := none
    pubDate := some "A", isoDate := none, itemSummary := none }

/-- An item published 24h01m ago (relative to instant 0). -/
def itemWB : FeedItem :=
  { title := "WB", link := "LB", contentSnippet := none, content := none
    pubDate := some "B", isoDate := none, itemSummary := none }

/-- The article produced from `itemC1` by `feedC`. -/
def artW : Article := toArticle feedC "https://a.example/rss" itemC1

/-! ### Helper lemmas -/

theorem fetch_foldl_eq (parseDate : String → Option Int) (now : Int) (seen : List String) :
    ∀ (frs : List (String × Except String Feed)) (init : List Article),
      frs.foldl (fun allArticles fr =>
        match fr.2 with
        | Except.error _ => allArticles
        | Except.ok feed =>
            allArticles ++ (feed.items.filter (keepItem parseDate now seen)).map (toArticle feed fr.1))
        init
      = init ++ frs.flatMap (feedArticles parseDate now seen) := by
  intro frs
  induction frs with
  | nil => intro init; simp
  | cons fr frs ih =>
      intro init
      rcases fr with ⟨url, res⟩
      cases res with
      | error e => simp [List.foldl_cons, ih, feedArticles]
      | ok feed => simp [List.foldl_cons, ih, feedArticles]

theorem fetchLatestArticles_eq (parseDate : String → Option Int) (now : Int)
    (seen : List String) (frs : List (String × Except String Feed)) :
    fetchLatestArticles parseDate now seen frs
      = frs.flatMap (feedArticles parseDate now seen) := by
  unfold fetchLatestArticles
  simpa using fetch_foldl_eq parseDate now seen frs []

theorem summarizeLoop_fst (backend : Article → Except String String) :
    ∀ (as : List Article) (seen sums : List String),
      (summarizeLoop backend as (seen, sums)).1 = as.reverse.map (·.link) ++ seen := by
  intro as
  induction as with
  | nil => intro seen sums; simp [summarizeLoop]
  | cons a as ih =>
      intro seen sums
      have h : summarizeLoop backend (a :: as) (seen, sums)
          = summarizeLoop backend as (a.link :: seen, sums ++ [summarizeArticle backend a]) := rfl
      rw [h, ih]
      simp

theorem summarizeLoop_snd (backend : Article → Except String String) :
    ∀ (as : List Article) (seen sums : List String),
      (summarizeLoop backend as (seen, sums)).2 = sums ++ as.map (summarizeArticle backend) := by
  intro as
  induction as with
  | nil => intro seen sums; simp [summarizeLoop]
  | cons a as ih =>
      intro seen sums
      have h : summarizeLoop backend (a :: as) (seen, sums)
          = summarizeLoop backend as (a.link :: seen, sums ++ [summarizeArticle backend a]) := rfl
      rw [h, ih]
      simp

theorem perArticleBlocks_length :
    ∀ (as : List Article) (ss : List String),
      (perArticleBlocks as ss).length = 4 * as.length := by
  intro as
  induction as with
  | nil => intro ss; simp [perArticleBlocks]
  | cons a as ih =>
      intro ss
      simp [perArticleBlocks, articleBlocks, ih]
      omega

theorem perArticleBlocks_get :
    ∀ (as : List Article) (ss : List String) (i : Nat) (hi : i < as.length),
      (perArticleBlocks as ss)[4 * i]? = some (articleTitleBlock (as.get ⟨i, hi⟩))
      ∧ (perArticleBlocks as ss)[4 * i + 1]? = some (sourceLinkBlock (as.get ⟨i, hi⟩))
      ∧ (perArticleBlocks as ss)[4 * i + 2]? = some (summaryBlock ss[i]?)
      ∧ (perArticleBlocks as ss)[4 * i + 3]? = some Block.divider := by
  intro as
  induction as with
  | nil => intro ss i hi; simp at hi
  | cons a as ih =>
      intro ss i hi
      cases i with
      | zero =>
          refine ⟨?_, ?_, ?_, ?_⟩ <;>
            simp [perArticleBlocks, articleBlocks, List.head?_eq_getElem?]
      | succ i =>
          have hlen : (articleBlocks a ss.head?).length = 4 := rfl
          have hi' : i < as.length := by simpa using Nat.lt_of_succ_lt_succ hi
          have key := ih ss.tail i hi'
          have e0 : 4 * (i + 1) = 4 * i + 4 := by omega
          have e1 : 4 * (i + 1) + 1 = (4 * i + 1) + 4 := by omega
          have e2 : 4 * (i + 1) + 2 = (4 * i + 2) + 4 := by omega
          have e3 : 4 * (i + 1) + 3 = (4 * i + 3) + 4 := by omega
          refine ⟨?_, ?_, ?_, ?_⟩
          · rw [e0, perArticleBlocks, List.getElem?_append_right (by omega)]
            simpa [hlen] using key.1
          · rw [e1, perArticleBlocks, List.getElem?_append_right (by omega)]
            simpa [hlen] using key.2.1
          · rw [e2, perArticleBlocks, List.getElem?_append_right (by omega)]
            simpa [hlen, List.getElem?_tail] using key.2.2.1
          · rw [e3, perArticleBlocks, List.getElem?_append_right (by omega)]
            simpa [hlen] using key.2.2.2

theorem addToNotionPage_appendCalls (append : List Block → Except String Unit)
    (today : String) (articles : List Article) (summaries : List String) :
    (addToNotionPage append today articles summaries).appendCalls
      = [buildBlocks today articles summaries] := by
  unfold addToNotionPage
  cases h : append (buildBlocks today articles summaries) <;> simp [h]

theorem addToNotionPage_outcome (append : List Block → Except String Unit)
    (today : String) (articles : List Article) (summaries : List String) :
    (addToNotionPage append today articles summaries).outcome = Except.ok () := by
  unfold addToNotionPage
  cases h : append (buildBlocks today articles summaries) <;> simp [h]

theorem processAINews_seen (env : RunEnv) (seen : List String) :
    (processAINews env seen).seen
      = (fetchLatestArticles env.parseDate env.now seen env.feedResults).reverse.map (·.link)
          ++ seen := by
  unfold processAINews
  by_cases h : (fetchLatestArticles env.parseDate env.now seen env.feedResults).isEmpty
  · rw [List.isEmpty_iff] at h
    simp [h]
  · simp only [h]
    simp [summarizeLoop_fst]

theorem processAINews_summaries (env : RunEnv) (seen : List String) :
    (processAINews env seen).summaries
      = (fetchLatestArticles env.parseDate env.now seen env.feedResults).map
          (summarizeArticle env.backend) := by
  unfold processAINews
  by_cases h : (fetchLatestArticles env.parseDate env.now seen env.feedResults).isEmpty
  · rw [List.isEmpty_iff] at h
    simp [h]
  · simp only [h]
    simp [summarizeLoop_snd]

theorem processAINews_summaryCalls (env : RunEnv) (seen : List String) :
    (processAINews env seen).summaryCalls
      = (fetchLatestArticles env.parseDate env.now seen env.feedResults).map (·.link) := by
  unfold processAINews
  by_cases h : (fetchLatestArticles env.parseDate env.now seen env.feedResults).isEmpty
  · rw [List.isEmpty_iff] at h
    simp [h]
  · simp only [h]
    simp

theorem processAINews_outcome (env : RunEnv) (seen : List String) :
    (processAINews env seen).outcome = Except.ok () := by
  unfold processAINews
  by_cases h : (fetchLatestArticles env.parseDate env.now seen env.feedResults).isEmpty
  · simp [h]
  · simp only [h]
    simp

theorem processAINews_publishes (env : RunEnv) (seen : List String)
    (h : ¬ (fetchLatestArticles env.parseDate env.now seen env.feedResults).isEmpty = true) :
    (processAINews env seen).publishes
      = [buildBlocks env.today
          (fetchLatestArticles env.parseDate env.now seen env.feedResults)
          ((fetchLatestArticles env.parseDate env.now seen env.feedResults).map
            (summarizeArticle env.backend))] := by
  unfold processAINews
  simp only [h]
  simp [addToNotionPage_appendCalls, summarizeLoop_snd]

theorem fallbackSummary_ne_empty (a : Article) : fallbackSummary a ≠ "" := by
  intro h
  have hl := congrArg String.length h
  rw [fallbackSummary, String.length_append] at hl
  have h9 : 0 < ("요약 생성 실패: " : String).length := by decide
  simp at hl
  omega

theorem jsOrString_of_ne_empty (s d : String) (h : s ≠ "") : jsOrString (some s) d = s := by
  unfold jsOrString
  simp [h]

theorem mem_fetchLatestArticles_intro (parseDate : String → Option Int) (now : Int)
    (seen : List String) (frs : List (String × Except String Feed))
    (url : String) (feed : Feed) (item : FeedItem)
    (hfr : (url, Except.ok feed) ∈ frs) (hitem : item ∈ feed.items)
    (hkeep : keepItem parseDate now seen item = true) :
    toArticle feed url item ∈ fetchLatestArticles parseDate now seen frs := by
  rw [fetchLatestArticles_eq]
  refine List.mem_flatMap.mpr ⟨(url, Except.ok feed), hfr, ?_⟩
  show toArticle feed url item
    ∈ (feed.items.filter (keepItem parseDate now seen)).map (toArticle feed url)
  exact List.mem_map.mpr ⟨item, List.mem_filter.mpr ⟨hitem, hkeep⟩, rfl⟩

theorem flatMap_sublist {α β : Type _} (f g : α → List β) (l : List α)
    (h : ∀ x, List.Sublist (f x) (g x)) :
    List.Sublist (l.flatMap f) (l.flatMap g) := by
  induction l with
  | nil => simp
  | cons a l ih => simpa [List.flatMap_cons] using List.Sublist.append (h a) ih

theorem fetch_links_sublist (parseDate : String → Option Int) (now : Int)
    (seen : List String) (frs : List (String × Except String Feed)) :
    List.Sublist ((fetchLatestArticles parseDate now seen frs).map (·.link))
      (allItemLinks frs) := by
  rw [fetchLatestArticles_eq, List.map_flatMap]
  unfold allItemLinks
  apply flatMap_sublist
  intro fr
  rcases fr with ⟨url, res⟩
  cases res with
  | error e => simp [feedArticles]
  | ok feed =>
      show List.Sublist
        (((feed.items.filter (keepItem parseDate now seen)).map (toArticle feed url)).map (·.link))
        (feed.items.map (·.link))
      rw [List.map_map]
      have hcomp : ((fun a : Article => a.link) ∘ toArticle feed url)
          = fun item : FeedItem => item.link := rfl
      rw [hcomp]
      exact List.Sublist.map _ (List.filter_sublist _)

theorem buildBlocks_get (today : String) (as : List Article) (ss : List String)
    (i : Nat) (hi : i < as.length) :
    (buildBlocks today as ss)[0]? = some (mkTitleBlock today)
    ∧ (buildBlocks today as ss)[4 * i + 1]? = some (articleTitleBlock (as.get ⟨i, hi⟩))
    ∧ (buildBlocks today as ss)[4 * i + 2]? = some (sourceLinkBlock (as.get ⟨i, hi⟩))
    ∧ (buildBlocks today as ss)[4 * i + 3]? = some (summaryBlock ss[i]?)
    ∧ (buildBlocks today as ss)[4 * i + 4]? = some Block.divider := by
  have key := perArticleBlocks_get as ss i hi
  unfold buildBlocks
  refine ⟨by simp, ?_, ?_, ?_, ?_⟩
  · rw [show 4 * i + 1 = (4 * i) + 1 from rfl, List.getElem?_cons_succ]
    exact key.1
  · rw [show 4 * i + 2 = (4 * i + 1) + 1 from rfl, List.getElem?_cons_succ]
    exact key.2.1
  · rw [show 4 * i + 3 = (4 * i + 2) + 1 from rfl, List.getElem?_cons_succ]
    exact key.2.2.1
  · rw [show 4 * i + 4 = (4 * i + 3) + 1 from rfl, List.getElem?_cons_succ]
    exact key.2.2.2

/-! ### Claims -/

/-- C2: for every request to `GET /run-now`, if the pipeline run completes
(its promise resolves) the response is HTTP 200 with `success = true`; if
an uncaught exception escapes the run (its promise rejects with error
`e`) the response is HTTP 500 with `success = false` carrying the error. -/
theorem C2_runNow_response_codes :
    (∀ (env : RunEnv) (seen : List String),
        (processAINews env seen).outcome = Except.ok () →
          runNowEndpoint env seen = { status := 200, success := true, error := none })
    ∧ (∀ e : String,
        runNowHandler (Except.error e)
          = { status := 500, success := false, error := some e }) := by
  constructor
  · intro env seen h
    unfold runNowEndpoint
    rw [h]
    rfl
  · intro e
    rfl

/-- Witness for C2: the concrete environment `envC` completes its run and
the endpoint answers 200 with `success = true`. -/
theorem C2_runNow_response_codes_witness :
    runNowEndpoint envC [] = { status := 200, success := true, error := none } :=
  C2_runNow_response_codes.1 envC [] (processAINews_outcome envC [])

/-- C4: a fetch or parse failure of one feed URL contributes zero records
and leaves the remaining feed URLs untouched: the fetch result over a
feed list containing a failing feed equals the concatenation of the
results over the feeds before and after it, and the fetch step is total
(never raises). -/
theorem C4_feed_failure_isolation (parseDate : String → Option Int) (now : Int)
    (seen : List String) (pre post : List (String × Except String Feed)) (url e : String) :
    fetchLatestArticles parseDate now seen (pre ++ (url, Except.error e) :: post)
      = fetchLatestArticles parseDate now seen pre
          ++ fetchLatestArticles parseDate now seen post := by
  simp [fetchLatestArticles_eq, List.flatMap_append, List.flatMap_cons, feedArticles]

/-- C5: an item with a parsable publish date is classified recent iff its
timestamp is strictly after `now - 24h` — a sliding window anchored at
the invocation time, with a strict boundary. -/
theorem C5_recency_boundary (parseDate : String → Option Int) (now : Int)
    (item : FeedItem) (t : Int) (h : itemPubMillis parseDate item = some t) :
    isRecent parseDate now item = true ↔ now - msPerDay < t := by
  unfold isRecent
  rw [h]
  simp

/-- Witness for C5: an item published 23h59m before the invocation
instant is recent; one published 24h01m before is not. -/
theorem C5_recency_boundary_witness :
    isRecent parseDateW 0 itemWA = true ∧ isRecent parseDateW 0 itemWB = false := by
  constructor
  · exact (C5_recency_boundary parseDateW 0 itemWA (-86340000) rfl).mpr (by decide)
  · cases hB : isRecent parseDateW 0 itemWB
    · rfl
    · exact absurd ((C5_recency_boundary parseDateW 0 itemWB (-86460000) rfl).mp hB)
        (by decide)

/-- C6: an item whose date fields are absent or unparsable (an Invalid
Date) is never kept by the filter, and every article the fetch step
returns has a parsable, in-window publish date — so bad-date items never
appear in the filtered output, and the fetch/filter step is total (never
raises). -/
theorem C6_bad_date_handling :
    (∀ (parseDate : String → Option Int) (now : Int) (seen : List String) (item : FeedItem),
        itemPubMillis parseDate item = none → keepItem parseDate now seen item = false)
    ∧ (∀ (parseDate : String → Option Int) (now : Int) (seen : List String)
        (frs : List (String × Except String Feed)) (a : Article),
        a ∈ fetchLatestArticles parseDate now seen frs →
          ∃ s t, a.pubDate = some s ∧ parseDate s = some t ∧ now - msPerDay < t) := by
  constructor
  · intro parseDate now seen item h
    unfold keepItem isRecent
    rw [h]
    rfl
  · intro parseDate now seen frs a ha
    rw [fetchLatestArticles_eq] at ha
    obtain ⟨fr, hfr, hmem⟩ := List.mem_flatMap.mp ha
    rcases fr with ⟨url, res⟩
    cases res with
    | error e => simp [feedArticles] at hmem
    | ok feed =>
        simp only [feedArticles] at hmem
        obtain ⟨item, hitem, rfl⟩ := List.mem_map.mp hmem
        have hkeep := (List.mem_filter.mp hitem).2
        unfold keepItem at hkeep
        simp only [Bool.and_eq_true] at hkeep
        have hrec : isRecent parseDate now item = true := hkeep.1
        have hpub : (toArticle feed url item).pubDate = jsStrOr item.pubDate item.isoDate := rfl
        unfold isRecent at hrec
        cases hm : itemPubMillis parseDate item with
        | none => rw [hm] at hrec; simp at hrec
        | some t =>
            rw [hm] at hrec
            have hlt : now - msPerDay < t := of_decide_eq_true hrec
            have hm' := hm
            unfold itemPubMillis at hm'
            cases hj : jsStrOr item.pubDate item.isoDate with
            | none => rw [hj] at hm'; exact absurd hm' (by simp)
            | some s =>
                rw [hj] at hm'
                exact ⟨s, t, by rw [hpub, hj], hm', hlt⟩

/-- Witness for C6: the dateless item `itemN` is filtered out, and the
one article the concrete environment fetches has a parsable recent
date. -/
theorem C6_bad_date_handling_witness :
    keepItem parseDateC nowC [] itemN = false
    ∧ ∃ s t, artW.pubDate = some s ∧ parseDateC s = some t ∧ nowC - msPerDay < t := by
  constructor
  · exact C6_bad_date_handling.1 parseDateC nowC [] itemN rfl
  · exact C6_bad_date_handling.2 parseDateC nowC [] envC.feedResults artW (by decide)

theorem contains_eq_false_of_not_mem (l : List String) (a : String) (h : a ∉ l) :
    l.contains a = false := by
  cases hc : l.contains a with
  | false => rfl
  | true => exact absurd (List.elem_iff.mp hc) h

theorem processAINews_of_fetch_nil (env : RunEnv) (seen : List String)
    (h : fetchLatestArticles env.parseDate env.now seen env.feedResults = []) :
    processAINews env seen
      = { seen := seen, summaries := [], summaryCalls := [], publishes := []
          logs := ["No new articles found"], outcome := Except.ok () } := by
  unfold processAINews
  rw [h]
  rfl

/-- C3: the Summarization Client never raises (it is a total function):
on any backend failure it returns the deterministic fallback
`"요약 생성 실패: " ++ title`, which contains the article's title; and when
the backend fails for every article, the run still resolves successfully
and the summary paragraph of each article in the published block list
carries that fallback string. -/
theorem C3_summarization_fallback :
    (∀ (backend : Article → Except String String) (a : Article) (e : String),
        backend a = Except.error e →
          summarizeArticle backend a = "요약 생성 실패: " ++ a.title)
    ∧ (∀ (env : RunEnv) (seen : List String),
        (∀ x : Article, ∃ e, env.backend x = Except.error e) →
          (processAINews env seen).outcome = Except.ok ()
          ∧ ∀ (i : Nat)
              (hi : i < (fetchLatestArticles env.parseDate env.now seen env.feedResults).length),
              ((processAINews env seen).publishes.headD [])[4 * i + 3]?
                = some (Block.paragraph
                    [⟨"요약 생성 실패: "
                        ++ ((fetchLatestArticles env.parseDate env.now seen env.feedResults).get
                              ⟨i, hi⟩).title,
                      none, false, none⟩])) := by
  constructor
  · intro backend a e h
    unfold summarizeArticle
    rw [h]
    rfl
  · intro env seen hb
    refine ⟨processAINews_outcome env seen, ?_⟩
    intro i hi
    have hne : ¬ (fetchLatestArticles env.parseDate env.now seen env.feedResults).isEmpty = true := by
      rw [List.isEmpty_iff]
      intro h0
      rw [h0] at hi
      simp at hi
    have hpub := processAINews_publishes env seen hne
    rw [hpub]
    have hkey := (buildBlocks_get env.today
      (fetchLatestArticles env.parseDate env.now seen env.feedResults)
      ((fetchLatestArticles env.parseDate env.now seen env.feedResults).map
        (summarizeArticle env.backend)) i hi).2.2.2.1
    have hmap : ((fetchLatestArticles env.parseDate env.now seen env.feedResults).map
        (summarizeArticle env.backend))[i]?
        = some (summarizeArticle env.backend
            ((fetchLatestArticles env.parseDate env.now seen env.feedResults).get ⟨i, hi⟩)) := by
      rw [List.getElem?_map, List.getElem?_eq_getElem hi]
      rfl
    rw [hmap] at hkey
    obtain ⟨e, he⟩ :=
      hb ((fetchLatestArticles env.parseDate env.now seen env.feedResults).get ⟨i, hi⟩)
    have hfall : summarizeArticle env.backend
        ((fetchLatestArticles env.parseDate env.now seen env.feedResults).get ⟨i, hi⟩)
        = fallbackSummary
            ((fetchLatestArticles env.parseDate env.now seen env.feedResults).get ⟨i, hi⟩) := by
      unfold summarizeArticle
      rw [he]
    rw [hfall] at hkey
    have hsb : summaryBlock (some (fallbackSummary
        ((fetchLatestArticles env.parseDate env.now seen env.feedResults).get ⟨i, hi⟩)))
        = Block.paragraph
            [⟨fallbackSummary
                ((fetchLatestArticles env.parseDate env.now seen env.feedResults).get ⟨i, hi⟩),
              none, false, none⟩] := by
      unfold summaryBlock
      rw [jsOrString_of_ne_empty _ _ (fallbackSummary_ne_empty _)]
    rw [hsb] at hkey
    simpa [fallbackSummary] using hkey

/-- Witness for C3: with the always-failing backend of `envC`, the
summarization of `artW` is the fallback string carrying its title, the
run resolves successfully, and the published summary paragraph for the
single fetched article carries the fallback string. -/
theorem C3_summarization_fallback_witness :
    summarizeArticle envC.backend artW = "요약 생성 실패: " ++ artW.title
    ∧ (processAINews envC []).outcome = Except.ok ()
    ∧ ((processAINews envC []).publishes.headD [])[3]?
        = some (Block.paragraph
            [⟨"요약 생성 실패: "
                ++ ((fetchLatestArticles envC.parseDate envC.now [] envC.feedResults).get
                      ⟨0, by decide⟩).title,
              none, false, none⟩]) := by
  have h2 := C3_summarization_fallback.2 envC [] (fun x => ⟨"quota exceeded", rfl⟩)
  exact ⟨C3_summarization_fallback.1 envC.backend artW "quota exceeded" rfl,
    h2.1, h2.2 0 (by decide)⟩

/-- C7: within the summarization loop, an article's link is added to the
seen set by the very step that produced its summary attempt (success or
fallback), so it is present before any later article is processed;
processing a list that continues after the article resumes from exactly
that state; and the final seen set of a run is the loop's output —
the publish step neither adds to nor removes from it (changing the
append outcome cannot change the seen set). -/
theorem C7_seen_marked_after_summary :
    (∀ (backend : Article → Except String String) (seen₀ sums : List String)
        (pre : List Article) (a : Article),
        a.link ∈ (summarizeLoop backend (pre ++ [a]) (seen₀, sums)).1)
    ∧ (∀ (backend : Article → Except String String) (st : List String × List String)
        (pre post : List Article) (a : Article),
        summarizeLoop backend (pre ++ a :: post) st
          = summarizeLoop backend post (summarizeLoop backend (pre ++ [a]) st))
    ∧ (∀ (env : RunEnv) (seen₀ : List String),
        (processAINews env seen₀).seen
          = (summarizeLoop env.backend
              (fetchLatestArticles env.parseDate env.now seen₀ env.feedResults)
              (seen₀, [])).1)
    ∧ (∀ (env : RunEnv) (ap : List Block → Except String Unit) (seen₀ : List String),
        (processAINews { env with append := ap } seen₀).seen
          = (processAINews env seen₀).seen) := by
  refine ⟨?_, ?_, ?_, ?_⟩
  · intro backend seen₀ sums pre a
    rw [summarizeLoop_fst]
    simp
  · intro backend st pre post a
    unfold summarizeLoop
    rw [show pre ++ a :: post = (pre ++ [a]) ++ post by simp]
    exact List.foldl_append _ _ _ _
  · intro env seen₀
    rw [processAINews_seen, summarizeLoop_fst]
  · intro env ap seen₀
    rw [processAINews_seen, processAINews_seen]

/-- C8: running the pipeline a second time in the same process, with the
same feed responses and a second-run recency window that classifies every
item the same way, fetches zero articles: every summarized link of the
first run is in the seen set, so the second run performs no summarization
calls, makes no append call, and leaves the seen set unchanged. -/
theorem C8_second_run_idempotent (env : RunEnv) (now₂ : Int) (seen₀ : List String)
    (hrec : ∀ item : FeedItem,
        isRecent env.parseDate now₂ item = isRecent env.parseDate env.now item) :
    fetchLatestArticles env.parseDate now₂ (processAINews env seen₀).seen env.feedResults = []
    ∧ (processAINews { env with now := now₂ } (processAINews env seen₀).seen).summaryCalls = []
    ∧ (processAINews { env with now := now₂ } (processAINews env seen₀).seen).publishes = []
    ∧ (processAINews { env with now := now₂ } (processAINews env seen₀).seen).seen
        = (processAINews env seen₀).seen := by
  have hseen₁ : (processAINews env seen₀).seen
      = (fetchLatestArticles env.parseDate env.now seen₀ env.feedResults).reverse.map (·.link)
          ++ seen₀ := processAINews_seen env seen₀
  have hfetch : fetchLatestArticles env.parseDate now₂ (processAINews env seen₀).seen
      env.feedResults = [] := by
    rw [fetchLatestArticles_eq, List.flatMap_eq_nil_iff]
    intro fr hfr
    rcases fr with ⟨url, res⟩
    cases res with
    | error e => rfl
    | ok feed =>
        show (feed.items.filter
          (keepItem env.parseDate now₂ (processAINews env seen₀).seen)).map (toArticle feed url)
            = []
        rw [List.map_eq_nil_iff, List.filter_eq_nil_iff]
        intro item hitem hk
        have hk' : keepItem env.parseDate now₂ (processAINews env seen₀).seen item = true := hk
        unfold keepItem at hk'
        simp only [Bool.and_eq_true] at hk'
        obtain ⟨hr₂, hns⟩ := hk'
        have hnotin : item.link ∉ (processAINews env seen₀).seen := by
          intro hin
          have hc : (processAINews env seen₀).seen.contains item.link = true :=
            List.elem_iff.mpr hin
          rw [hc] at hns
          simp at hns
        have hr₁ : isRecent env.parseDate env.now item = true := by
          rw [← hrec]
          exact hr₂
        have hnot₀ : item.link ∉ seen₀ := fun hin =>
          hnotin (by rw [hseen₁]; exact List.mem_append_right _ hin)
        have hkeep₁ : keepItem env.parseDate env.now seen₀ item = true := by
          unfold keepItem
          rw [hr₁, contains_eq_false_of_not_mem _ _ hnot₀]
          rfl
        have hmem₁ : toArticle feed url item
            ∈ fetchLatestArticles env.parseDate env.now seen₀ env.feedResults :=
          mem_fetchLatestArticles_intro _ _ _ _ url feed item hfr hitem hkeep₁
        have hlink : item.link ∈ (processAINews env seen₀).seen := by
          rw [hseen₁]
          apply List.mem_append_left
          rw [List.mem_map]
          exact ⟨toArticle feed url item, by rw [List.mem_reverse]; exact hmem₁, rfl⟩
        exact hnotin hlink
  have hfetch₂ : fetchLatestArticles ({ env with now := now₂ } : RunEnv).parseDate
      ({ env with now := now₂ } : RunEnv).now (processAINews env seen₀).seen
      ({ env with now := now₂ } : RunEnv).feedResults = [] := hfetch
  have hrun := processAINews_of_fetch_nil { env with now := now₂ }
    (processAINews env seen₀).seen hfetch₂
  refine ⟨hfetch, ?_, ?_, ?_⟩
  · rw [hrun]
  · rw [hrun]
  · rw [hrun]

/-- Witness for C8: in `envC`, after one run from an empty seen set, a
second run with the same window fetches nothing, summarizes nothing,
publishes nothing, and leaves the seen set unchanged. -/
theorem C8_second_run_idempotent_witness :
    fetchLatestArticles envC.parseDate envC.now (processAINews envC []).seen envC.feedResults = []
    ∧ (processAINews { envC with now := envC.now } (processAINews envC []).seen).summaryCalls = []
    ∧ (processAINews { envC with now := envC.now } (processAINews envC []).seen).publishes = []
    ∧ (processAINews { envC with now := envC.now } (processAINews envC []).seen).seen
        = (processAINews envC []).seen :=
  C8_second_run_idempotent envC envC.now [] (fun _ => rfl)

/-- C1 counterexample: in `envC1` the single Notion append call is
rejected, an append was attempted, yet `processAINews` resolves
successfully (no error escalates to the orchestrator) and the run even
logs its success message — refuting the claim that the publish failure
escalates and aborts the run. -/
theorem C1_publish_failure_counterexample :
    envC1.append ((processAINews envC1 []).publishes.headD []) = Except.error "append rejected"
    ∧ (processAINews envC1 []).publishes ≠ []
    ∧ (processAINews envC1 []).outcome = Except.ok ()
    ∧ "AI news processing completed successfully" ∈ (processAINews envC1 []).logs := by
  refine ⟨rfl, by decide, processAINews_outcome envC1 [], by decide⟩

/-- C1 amended: when the batched append is rejected, the failure is
caught inside `addToNotionPage`: it is logged, exactly one append attempt
is made (no retry), and it does NOT escalate — `addToNotionPage` returns
normally and the orchestrator always resolves successfully. -/
theorem C1_publish_failure_amended (append : List Block → Except String Unit)
    (today : String) (articles : List Article) (summaries : List String) (e : String)
    (h : append (buildBlocks today articles summaries) = Except.error e) :
    (addToNotionPage append today articles summaries).outcome = Except.ok ()
    ∧ (addToNotionPage append today articles summaries).appendCalls
        = [buildBlocks today articles summaries]
    ∧ (addToNotionPage append today articles summaries).logs
        = ["Error adding to Notion: " ++ e]
    ∧ ∀ (env : RunEnv) (seen : List String),
        (processAINews env seen).outcome = Except.ok () := by
  refine ⟨addToNotionPage_outcome _ _ _ _, addToNotionPage_appendCalls _ _ _ _, ?_,
    fun env seen => processAINews_outcome env seen⟩
  unfold addToNotionPage
  simp [h]

/-- Witness for C1's amended claim: the failing append of `envC1` is
absorbed, logged, attempted exactly once, and the run resolves. -/
theorem C1_publish_failure_amended_witness :
    (addToNotionPage envC1.append "D" [artW] ["S"]).outcome = Except.ok ()
    ∧ (addToNotionPage envC1.append "D" [artW] ["S"]).appendCalls
        = [buildBlocks "D" [artW] ["S"]]
    ∧ (addToNotionPage envC1.append "D" [artW] ["S"]).logs
        = ["Error adding to Notion: " ++ "append rejected"]
    ∧ (processAINews envC1 []).outcome = Except.ok () := by
  have key := C1_publish_failure_amended envC1.append "D" [artW] ["S"] "append rejected" rfl
  exact ⟨key.1, key.2.1, key.2.2.1, key.2.2.2 envC1 []⟩

/-- C9 counterexample: in `envC9` two distinct configured feeds carry an
item with the same link `"L1"`: a single run issues two summarization
calls for that link, refuting "at most once per link, regardless of how
many configured feeds carry an item with that link". -/
theorem C9_duplicate_link_counterexample :
    (processAINews envC9 []).summaryCalls = ["L1", "L1"]
    ∧ ¬ ((processAINews envC9 []).summaryCalls.count "L1" ≤ 1) := by
  exact ⟨by decide, by decide⟩

/-- C9 amended: within a single run, each element of the merged filtered
article list is summarized exactly once; when the links of the items
across all successfully fetched feeds are pairwise distinct, summarization
is invoked at most once per link. -/
theorem C9_at_most_once_per_link (env : RunEnv) (seen : List String)
    (h : (allItemLinks env.feedResults).Nodup) :
    (processAINews env seen).summaryCalls.Nodup
    ∧ ∀ l : String, (processAINews env seen).summaryCalls.count l ≤ 1 := by
  have hsub := fetch_links_sublist env.parseDate env.now seen env.feedResults
  have hnodup : ((fetchLatestArticles env.parseDate env.now seen env.feedResults).map
      (·.link)).Nodup := h.sublist hsub
  rw [processAINews_summaryCalls]
  exact ⟨hnodup, List.nodup_iff_count_le_one.mp hnodup⟩

/-- Witness for C9's amended claim: `envC` carries pairwise-distinct item
links, and its run's summarization calls are duplicate-free. -/
theorem C9_at_most_once_per_link_witness :
    (processAINews envC []).summaryCalls.Nodup
    ∧ (processAINews envC []).summaryCalls.count "L1" ≤ 1 := by
  have key := C9_at_most_once_per_link envC [] (by decide)
  exact ⟨key.1, key.2 "L1"⟩

/-- C10: for a non-empty batch, the publisher submits all blocks in a
single append call whose payload is: one date-labeled heading block at
index 0, then per article `i` (0-based) exactly four blocks in fixed
order — bold title heading at `4i+1`, source-plus-hyperlink paragraph at
`4i+2`, summary paragraph (with the literal `요약 없음` placeholder when
the summary is missing or empty) at `4i+3`, divider at `4i+4` — for a
total of `1 + 4n` blocks. -/
theorem C10_publisher_block_layout (append : List Block → Except String Unit)
    (today : String) (articles : List Article) (summaries : List String)
    (h : articles ≠ []) :
    (addToNotionPage append today articles summaries).appendCalls
      = [buildBlocks today articles summaries]
    ∧ (buildBlocks today articles summaries).length = 1 + 4 * articles.length
    ∧ (buildBlocks today articles summaries)[0]?
        = some (Block.heading2 [⟨"AI 뉴스 요약 - " ++ today, none, false, none⟩])
    ∧ ∀ (i : Nat) (hi : i < articles.length),
        (buildBlocks today articles summaries)[4 * i + 1]?
          = some (Block.heading3 [⟨(articles.get ⟨i, hi⟩).title, none, true, none⟩])
        ∧ (buildBlocks today articles summaries)[4 * i + 2]?
          = some (Block.paragraph
              [⟨"출처: " ++ (articles.get ⟨i, hi⟩).source ++ " | ", none, false, none⟩,
               ⟨"원문 링크", some (articles.get ⟨i, hi⟩).link, false, some "blue"⟩])
        ∧ (buildBlocks today articles summaries)[4 * i + 3]?
          = some (Block.paragraph [⟨jsOrString summaries[i]? "요약 없음", none, false, none⟩])
        ∧ (buildBlocks today articles summaries)[4 * i + 4]?
          = some Block.divider := by
  refine ⟨addToNotionPage_appendCalls _ _ _ _, ?_, by simp [buildBlocks, mkTitleBlock], ?_⟩
  · unfold buildBlocks
    simp [perArticleBlocks_length]
    omega
  · intro i hi
    have key := buildBlocks_get today articles summaries i hi
    exact ⟨key.2.1, key.2.2.1, key.2.2.2.1, key.2.2.2.2⟩

/-- Witness for C10: concrete one-article batch with a non-empty summary. -/
theorem C10_publisher_block_layout_witness :
    (addToNotionPage (fun _ => Except.ok ()) "D" [artW] ["S"]).appendCalls
      = [buildBlocks "D" [artW] ["S"]]
    ∧ (buildBlocks "D" [artW] ["S"]).length = 1 + 4 * 1
    ∧ (buildBlocks "D" [artW] ["S"])[0]?
        = some (Block.heading2 [⟨"AI 뉴스 요약 - " ++ "D", none, false, none⟩])
    ∧ (buildBlocks "D" [artW] ["S"])[1]?
        = some (Block.heading3 [⟨artW.title, none, true, none⟩])
    ∧ (buildBlocks "D" [artW] ["S"])[2]?
        = some (Block.paragraph
            [⟨"출처: " ++ artW.source ++ " | ", none, false, none⟩,
             ⟨"원문 링크", some artW.link, false, some "blue"⟩])
    ∧ (buildBlocks "D" [artW] ["S"])[3]?
        = some (Block.paragraph [⟨jsOrString (some "S") "요약 없음", none, false, none⟩])
    ∧ (buildBlocks "D" [artW] ["S"])[4]? = some Block.divider := by
  have key := C10_publisher_block_layout (fun _ => Except.ok ()) "D" [artW] ["S"] (by decide)
  have k4 := key.2.2.2 0 (by decide)
  exact ⟨key.1, key.2.1, key.2.2.1, k4.1, k4.2.1, k4.2.2.1, k4.2.2.2⟩
